import Mathlib

/-!
Verification of the FindYourJob backend (job-board REST API) against its
specification.  The development shallowly embeds the application-lifecycle
code: the Application mongoose model (models/Application.js), the job model
(jobSchema in models/Company.js), the application controller
(controllers/applicationController.js), the upload/validation middleware
(middleware/uploadMiddleware.js) and the route pipeline
(routes/applications.js).  Identifiers follow the source names.  Dates are
omitted from timeline entries (wall-clock values, irrelevant to the claims);
object ids are modelled as Nat; JS strings as Lean strings.
-/

namespace FindYourJob

/-! ## JS string primitives used by the source -/

/-- The whitespace class of JS `\s` / `String.prototype.trim` (ASCII part). -/
def jsWhitespace (c : Char) : Bool :=
  c == ' ' || c == '\t' || c == '\n' || c == '\r' || c == '\x0b' || c == '\x0c'

/-- Trim on char lists: drop whitespace at both ends. -/
def trimChars (cs : List Char) : List Char :=
  ((cs.dropWhile jsWhitespace).reverse.dropWhile jsWhitespace).reverse

/-- JS `String.prototype.trim`. -/
def jsTrim (s : String) : String := ⟨trimChars s.data⟩

/-- JS `String.prototype.toLowerCase` (ASCII case mapping). -/
def lowerStr (s : String) : String := ⟨s.data.map Char.toLower⟩

/-- Split a char list at every occurrence of `c` (like `String.split`). -/
def splitChar (c : Char) : List Char → List (List Char)
  | [] => [[]]
  | x :: xs =>
    match splitChar c xs with
    | [] => [[]]
    | g :: gs => if x == c then [] :: g :: gs else (x :: g) :: gs

/-- Node `path.extname` on a bare file name: the suffix from the last dot,
    empty when there is no dot or the only dot is the leading character. -/
def extnameL (cs : List Char) : List Char :=
  let rev := cs.reverse
  let afterRev := rev.takeWhile (fun c => !(c == '.'))
  match rev.drop afterRev.length with
  | [] => []
  | [_] => []
  | _ :: _ :: _ => '.' :: afterRev.reverse

def extname (s : String) : String := ⟨extnameL s.data⟩

/-- Join a list of strings with comma-space separators. -/
def joinComma : List String → String
  | [] => ""
  | [s] => s
  | s :: rest => s ++ ", " ++ joinComma rest

/-! ## The two email regexes and the phone regex of the source -/

/-- JS `\w`. -/
def wordChar (c : Char) : Bool := c.isAlphanum || c == '_'

def lastCharD (cs : List Char) (d : Char) : Char := cs.reverse.headD d

/-- No two adjacent characters are both separators. -/
def adjOk : List Char → Bool
  | [] => true
  | [_] => true
  | a :: b :: rest => (wordChar a || wordChar b) && adjOk (b :: rest)

/-- The language of `\w+([.-]?\w+)*`: nonempty, word chars possibly broken by
    single `.` or `-` separators, starting and ending with a word char. -/
def l1Mem (cs : List Char) : Bool :=
  match cs with
  | [] => false
  | c :: rest =>
    wordChar c && wordChar (lastCharD (c :: rest) ' ')
      && (c :: rest).all (fun x => wordChar x || x == '.' || x == '-')
      && adjOk (c :: rest)

/-- A `\w{2,3}` trailing domain label. -/
def tldOk (p : List Char) : Bool :=
  (p.length == 2 || p.length == 3) && p.all wordChar

def joinDots : List (List Char) → List Char
  | [] => []
  | [p] => p
  | p :: rest => p ++ '.' :: joinDots rest

/-- Try every split of the dot-separated domain labels into a
    `\w+([.-]?\w+)*` part followed by one or more `\.\w{2,3}` labels. -/
def domainOkAux (pre : List (List Char)) : List (List Char) → Bool
  | [] => false
  | p :: rest =>
    (!pre.isEmpty && (p :: rest).all tldOk && l1Mem (joinDots pre.reverse))
      || domainOkAux (p :: pre) rest

/-- The mongoose schema email validator
    `/^\w+([.-]?\w+)*@\w+([.-]?\w+)*(\.\w{2,3})+$/` (models/Application.js). -/
def mongooseEmailOk (s : String) : Bool :=
  match splitChar '@' s.data with
  | [lp, domain] => l1Mem lp && domainOkAux [] (splitChar '.' domain)
  | _ => false

/-- The middleware email check `/^[^\s@]+@[^\s@]+\.[^\s@]+$/`
    (uploadMiddleware.js, validateApplicationWithFiles). -/
def mwEmailOk (s : String) : Bool :=
  match splitChar '@' s.data with
  | [a, r] =>
      !a.isEmpty && !a.any jsWhitespace && !r.isEmpty && !r.any jsWhitespace
        && ((r.drop 1).dropLast.contains '.')
  | _ => false

/-- The mongoose phone validator `/^\+?[\d\s\-()]{10,}$/`. -/
def phoneChar (c : Char) : Bool :=
  c.isDigit || jsWhitespace c || c == '-' || c == '(' || c == ')'

def phoneOk (s : String) : Bool :=
  let cs := match s.data with
    | '+' :: rest => rest
    | cs => cs
  decide (10 ≤ cs.length) && cs.all phoneChar

/-! ## Data model (models/Application.js, jobSchema in models/Company.js) -/

/-- Enum values of `applicationSchema.status`. -/
def applicationStatusValues : List String :=
  ["pending", "reviewing", "shortlisted", "interviewed", "offered", "rejected",
   "withdrawn"]

/-- Enum values of `applicationSchema.timeline.status` (note: `submitted`
    instead of `pending`). -/
def timelineStatusValues : List String :=
  ["submitted", "reviewing", "shortlisted", "interviewed", "offered",
   "rejected", "withdrawn"]

/-- Enum values of `applicationSchema.skills.level`. -/
def skillLevelValues : List String :=
  ["beginner", "intermediate", "advanced", "expert"]

/-- Enum values of `jobSchema.experienceLevel`. -/
def jobExperienceLevels : List String := ["entry", "mid", "senior", "executive"]

/-- Statuses accepted by the PUT /applications/:id/status route middleware. -/
def routeAllowedStatuses : List String :=
  ["pending", "reviewing", "shortlisted", "interviewed", "offered", "rejected"]

structure PersonalInfo where
  firstName : String
  lastName : String
  email : String
  phone : String
deriving Repr, DecidableEq, Inhabited

/-- Stored file descriptor (subset of the schema fields used by the claims). -/
structure FileDesc where
  originalName : String
  mimetype : String
deriving Repr, DecidableEq, Inhabited

structure TimelineEntry where
  status : String
  notes : String
  updatedBy : Option Nat
deriving Repr, DecidableEq, Inhabited

structure Skill where
  name : String
  level : String
deriving Repr, DecidableEq, Inhabited

structure Application where
  applicant : Nat
  job : Nat
  status : String
  personalInfo : PersonalInfo
  resume : Option FileDesc
  skills : List Skill
  experienceTotalYears : Option Nat
  timeline : List TimelineEntry
deriving Repr, DecidableEq, Inhabited

/-- jobSchema (defined in models/Company.js).  Its poster field is named
    `postedBy`; the schema has no `employer` path. -/
structure Job where
  id : Nat
  postedBy : Nat
deriving Repr, DecidableEq, Inhabited

/-- The authenticated actor attached to the request by the auth middleware. -/
structure UserCtx where
  id : Nat
  role : String
deriving Repr, DecidableEq, Inhabited

structure AppError where
  statusCode : Nat
  message : String
deriving Repr, DecidableEq, Inhabited

/-! ## Mongoose document validation (the schema constraints exercised here) -/

def validPersonalInfo (p : PersonalInfo) : Bool :=
  !p.firstName.data.isEmpty && decide (p.firstName.length ≤ 50)
    && !p.lastName.data.isEmpty && decide (p.lastName.length ≤ 50)
    && !p.email.data.isEmpty && mongooseEmailOk p.email
    && !p.phone.data.isEmpty && phoneOk p.phone

def validSkill (s : Skill) : Bool :=
  decide (s.name.length ≤ 50) && skillLevelValues.contains s.level

/-- Schema validation run by mongoose on save: status enum, timeline status
    enum, required/validated personalInfo sub-fields, skills, experience
    bounds. -/
def validApplication (a : Application) : Bool :=
  applicationStatusValues.contains a.status
    && a.timeline.all (fun e => timelineStatusValues.contains e.status)
    && validPersonalInfo a.personalInfo
    && a.skills.all validSkill
    && decide (a.experienceTotalYears.getD 0 ≤ 50)

/-! ## Save hooks and instance methods (models/Application.js) -/

/-- The pre-save middleware: on a status change of an existing document
    it appends a `Status changed to ...` entry; on a new document it appends
    the initial `submitted` entry. -/
def preSaveTimeline (a : Application) (isNew statusModified : Bool) :
    Application :=
  let a1 :=
    if statusModified && !isNew then
      { a with timeline := a.timeline
          ++ [⟨a.status, "Status changed to " ++ a.status, none⟩] }
    else a
  if isNew then
    { a1 with timeline := a1.timeline
        ++ [⟨"submitted", "Application submitted", none⟩] }
  else a1

/-- Model of `document.save()`: run the pre-save hook, then schema
    validation. -/
def mongooseSave (a : Application) (isNew statusModified : Bool) :
    Except AppError Application :=
  if validApplication (preSaveTimeline a isNew statusModified) then
    .ok (preSaveTimeline a isNew statusModified)
  else .error ⟨400, "Validation error"⟩

/-- Model of `applicationSchema.methods.updateStatus`: set the status, push a timeline
    entry, save.  Mongoose marks `status` modified only when the assigned
    value differs from the current one. -/
def updateStatus (a : Application) (newStatus notes : String)
    (updatedBy : Option Nat) : Except AppError Application :=
  let statusModified := decide (newStatus ≠ a.status)
  let a1 := { a with
    status := newStatus,
    timeline := a.timeline
      ++ [⟨newStatus,
           (if notes.data.isEmpty then "Status updated to " ++ newStatus
            else notes), updatedBy⟩] }
  mongooseSave a1 false statusModified

/-! ## Controllers (controllers/applicationController.js) -/

/-- Reading `job.employer` in the controllers: jobSchema defines `postedBy`
    and has no `employer` path, so mongoose yields `undefined` here. -/
def jobEmployer (_j : Job) : Option Nat := none

/-- JS `x.toString()` on a possibly-undefined value: throws a TypeError when
    the value is `undefined`; `catchAsync` surfaces it as a 500. -/
def jsToString : Option Nat → Except AppError Nat
  | none => .error ⟨500, "TypeError: Cannot read properties of undefined"⟩
  | some n => .ok n

/-- Model of `withdrawApplication` (applicationController.js lines 356-385). -/
def withdrawApplication (userId : Nat) (a : Application) :
    Except AppError Application :=
  if a.applicant ≠ userId then
    .error ⟨403, "You can only withdraw your own applications"⟩
  else if ["offered", "rejected", "withdrawn"].contains a.status then
    .error ⟨400, "This application cannot be withdrawn"⟩
  else updateStatus a "withdrawn" "Application withdrawn by candidate" none

/-- Model of `getJobApplications` (lines 270-317): pagination is omitted; the result
    is the full list of applications for the job. -/
def getJobApplications (u : UserCtx) (jobId : Nat) (jobs : List Job)
    (db : List Application) : Except AppError (List Application) :=
  match jobs.find? (fun j => j.id == jobId) with
  | none => .error ⟨404, "Job not found"⟩
  | some job =>
    if u.role ≠ "admin" then
      match jsToString (jobEmployer job) with
      | .error e => .error e
      | .ok emp =>
        if emp ≠ u.id then
          .error ⟨403, "You can only view applications for your own jobs"⟩
        else .ok (db.filter (fun a => a.job == jobId))
    else .ok (db.filter (fun a => a.job == jobId))

/-- PUT /applications/:id/status: the route-level status validation
    (routes/applications.js lines 120-139) followed by
    `updateApplicationStatus` (controller lines 322-351).  `j` is the
    populated job of the application. -/
def updateApplicationStatusRoute (u : UserCtx) (a : Application) (j : Job)
    (newStatus notes : String) : Except AppError Application :=
  if !newStatus.data.isEmpty && !routeAllowedStatuses.contains newStatus then
    .error ⟨400, "Invalid status"⟩
  else if u.role ≠ "admin" then
    match jsToString (jobEmployer j) with
    | .error e => .error e
    | .ok emp =>
      if emp ≠ u.id then
        .error ⟨403, "You can only update applications for your own jobs"⟩
      else updateStatus a newStatus notes (some u.id)
  else updateStatus a newStatus notes (some u.id)

/-! ## createApplication (controller lines 11-212) -/

/-- The parsed request reaching `createApplication` (personalInfo fields are
    present because `validateApplicationWithFiles` ran first). -/
structure CreateInput where
  userId : Nat
  role : String
  jobId : Nat
  personalInfo : PersonalInfo
  resume : Option FileDesc
  skillsField : Option String
deriving Repr, DecidableEq, Inhabited

/-- The skills body field split at commas, trimmed, with empty pieces
    dropped, mapped into skill records with the default `intermediate`
    level. -/
def buildSkills (s : String) : List Skill :=
  (((splitChar ',' s.data).map (fun cs => String.mk (trimChars cs))).filter
      (fun x => !x.data.isEmpty)).map (fun n => ⟨n, "intermediate"⟩)

/-- The document assembled by the controller before `Application.create`. -/
def rawDoc (req : CreateInput) (f : FileDesc) : Application :=
  { applicant := req.userId
    job := req.jobId
    status := "pending"
    personalInfo :=
      ⟨jsTrim req.personalInfo.firstName, jsTrim req.personalInfo.lastName,
       lowerStr (jsTrim req.personalInfo.email), jsTrim req.personalInfo.phone⟩
    resume := some f
    skills := match req.skillsField with
      | none => []
      | some s => buildSkills s
    experienceTotalYears := none
    timeline := [] }

/-- The document as persisted by `Application.create` (after the pre-save
    hook added the initial timeline entry). -/
def submittedDoc (req : CreateInput) (f : FileDesc) : Application :=
  preSaveTimeline (rawDoc req f) true true

/-- Model of `createApplication`: role gate, job existence, duplicate check, resume
    check, then create.  Returns the created document and the new store. -/
def createApplication (req : CreateInput) (jobs : List Job)
    (db : List Application) : Except AppError (Application × List Application) :=
  if req.role ≠ "candidate" then
    .error ⟨403, "Only candidates can submit applications"⟩
  else
    match jobs.find? (fun j => j.id == req.jobId) with
    | none => .error ⟨404, "Job not found"⟩
    | some _ =>
      if db.any (fun a => a.applicant == req.userId && a.job == req.jobId) then
        .error ⟨409, "You have already applied to this job"⟩
      else
        match req.resume with
        | none => .error ⟨400, "Resume file is required"⟩
        | some f =>
          match mongooseSave (rawDoc req f) true true with
          | .ok a => .ok (a, db ++ [a])
          | .error e => .error ⟨400, "Validation error: " ++ e.message⟩

/-! ## Upload middleware (middleware/uploadMiddleware.js) -/

/-- The mime allow-list of a slot, empty for unknown field names. -/
def allowedMimeTypes (field : String) : List String :=
  if field == "resume" then
    ["application/pdf", "application/msword",
     "application/vnd.openxmlformats-officedocument.wordprocessingml.document"]
  else if field == "portfolio" || field == "additionalDocuments" then
    ["application/pdf", "application/msword",
     "application/vnd.openxmlformats-officedocument.wordprocessingml.document",
     "application/zip", "application/x-zip-compressed",
     "application/x-rar-compressed", "image/jpeg", "image/png"]
  else []

/-- The extension allow-list of a slot, empty for unknown field names. -/
def allowedExtensions (field : String) : List String :=
  if field == "resume" then [".pdf", ".doc", ".docx"]
  else if field == "portfolio" || field == "additionalDocuments" then
    [".pdf", ".doc", ".docx", ".zip", ".rar", ".jpg", ".jpeg", ".png"]
  else []

def invalidFileTypeMsg (field : String) : String :=
  "Invalid file type for " ++ field ++ ". Allowed types: "
    ++ joinComma (allowedExtensions field)

/-- multer `fileFilter`: the declared mime type AND the lowercased extension
    must both be in the slot allow-lists; `handleUploadError` reports the
    `INVALID_FILE_TYPE` error as a 400. -/
def fileFilter (field : String) (f : FileDesc) : Except AppError Unit :=
  let fileExtension := lowerStr (extname f.originalName)
  if (allowedMimeTypes field).contains f.mimetype
      && (allowedExtensions field).contains fileExtension then .ok ()
  else .error ⟨400, invalidFileTypeMsg field⟩

/-- The `personalInfo` body field as received: absent, unparseable JSON, or a
    parsed object whose sub-fields may be individually absent. -/
structure PersonalInfoInput where
  firstName : Option String
  lastName : Option String
  email : Option String
  phone : Option String
  skills : Option String
deriving Repr, DecidableEq, Inhabited

inductive PIField where
  | absent
  | badJson
  | parsed (p : PersonalInfoInput)
deriving Repr, BEq, DecidableEq, Inhabited

/-- The raw multipart request reaching POST /applications (fields the
    pipeline inspects; `none` for `jobIdField` covers an absent or falsy
    job id). -/
structure RawReq where
  userId : Nat
  role : String
  jobIdField : Option Nat
  personalInfoField : PIField
  resumeUpload : Option FileDesc
deriving Repr, DecidableEq, Inhabited

/-- A personal-info sub-field counts as missing when absent or blank after
    trimming. -/
def fieldMissing : Option String → Bool
  | none => true
  | some s => (jsTrim s).data.isEmpty

/-- The required-sub-field and email checks of
    `validateApplicationWithFiles`, in source order. -/
def validatePI (p : PersonalInfoInput) : Option AppError :=
  if fieldMissing p.firstName then
    some ⟨400, "firstName is required in personal information"⟩
  else if fieldMissing p.lastName then
    some ⟨400, "lastName is required in personal information"⟩
  else if fieldMissing p.email then
    some ⟨400, "email is required in personal information"⟩
  else if fieldMissing p.phone then
    some ⟨400, "phone is required in personal information"⟩
  else if !mwEmailOk (p.email.getD "") then
    some ⟨400, "Please provide a valid email address"⟩
  else none

/-- Model of `validateApplicationWithFiles` (uploadMiddleware.js lines 214-277):
    JSON parse of personalInfo, presence of jobId and personalInfo, presence
    of the resume file, then the personal-info field checks. -/
def validateApplicationWithFiles (req : RawReq) :
    Except AppError PersonalInfoInput :=
  if req.personalInfoField == .badJson then
    .error ⟨400, "Invalid JSON format for personalInfo"⟩
  else if req.jobIdField.isNone then .error ⟨400, "jobId is required"⟩
  else
    match req.personalInfoField with
    | .parsed p =>
      if req.resumeUpload.isNone then
        .error ⟨400, "Resume file is required"⟩
      else
        match validatePI p with
        | some e => .error e
        | none => .ok p
    | _ => .error ⟨400, "personalInfo is required"⟩

/-- The full POST /applications pipeline (routes/applications.js lines
    62-101): authorize for roles candidate/admin, then `uploadApplicationFiles`
    (multer `fileFilter` on the resume slot), then
    `validateApplicationWithFiles`, then the controller. -/
def submitPipeline (req : RawReq) (jobs : List Job) (db : List Application) :
    Except AppError (Application × List Application) :=
  if !(["candidate", "admin"].contains req.role) then
    .error ⟨403, "You do not have permission to perform this action"⟩
  else
    match (match req.resumeUpload with
           | none => Except.ok ()
           | some f => fileFilter "resume" f) with
    | .error e => .error e
    | .ok _ =>
      match validateApplicationWithFiles req with
      | .error e => .error e
      | .ok p =>
        createApplication
          ⟨req.userId, req.role, req.jobIdField.getD 0,
           ⟨p.firstName.getD "", p.lastName.getD "", p.email.getD "",
            p.phone.getD ""⟩,
           req.resumeUpload, p.skills⟩ jobs db

/-- The application store after the pipeline ran (unchanged on error). -/
def submitPipelineState (req : RawReq) (jobs : List Job)
    (db : List Application) : List Application :=
  match submitPipeline req jobs db with
  | .ok (_, db2) => db2
  | .error _ => db

/-! ## Compatibility scoring (models/Application.js lines 362-399) -/

structure JobRequirements where
  skills : Option (List String)
  experienceLevel : Option String
deriving Repr, DecidableEq, Inhabited

/-- The experience-years table lookup, defaulting to 0 for levels outside
    the table. -/
def requiredExpLookup (level : String) : Nat :=
  if level == "entry" then 0
  else if level == "mid" then 3
  else if level == "senior" then 7
  else if level == "executive" then 15
  else 0

/-- The final rounding step of the score (0 when maxScore is 0), with
    `Math.round` modelled exactly over rationals as floor(x + 1/2); for the
    integer point values here the float computation agrees. -/
def jsRound100 (score maxScore : Nat) : Nat :=
  if maxScore == 0 then 0 else (200 * score + maxScore) / (2 * maxScore)

/-- Model of `applicationSchema.methods.calculateCompatibilityScore`.  The experience
    comparison `totalYears >= required * 0.7` is modelled as
    `7 * required ≤ 10 * totalYears`; for integer year counts this agrees
    with the float evaluation. -/
def calculateCompatibilityScore (a : Application) (jr : JobRequirements) :
    Nat :=
  let sm1 : Nat × Nat :=
    match jr.skills with
    | none => (0, 0)
    | some js =>
      let applicantSkills := a.skills.map (fun s => lowerStr s.name)
      (js.map lowerStr).foldl
        (fun acc sk =>
          (acc.1 + (if applicantSkills.contains sk then 10 else 0),
           acc.2 + 10)) (0, 0)
  let sm2 : Nat × Nat :=
    match jr.experienceLevel, a.experienceTotalYears with
    | some lvl, some yrs =>
      let required := requiredExpLookup lvl
      ((if required ≤ yrs then 20
        else if 7 * required ≤ 10 * yrs then 10 else 0), 20)
    | _, _ => (0, 0)
  jsRound100 (sm1.1 + sm2.1) (sm1.2 + sm2.2)

/-- The scoring rule as the specification words it: 10 points per required
    skill present in the applicant skill list under case-insensitive match
    out of 10 possible each; 20 points when the experience years meet the
    level threshold, 10 when they reach 70% of it, 0 otherwise, out of 20
    possible; `round(earned/possible * 100)`, 0 when no criteria apply. -/
def specThreshold : String → Nat
  | "entry" => 0
  | "mid" => 3
  | "senior" => 7
  | "executive" => 15
  | _ => 0

def specCompatibilityScore (a : Application) (jr : JobRequirements) : Nat :=
  let earnedSkills : Nat :=
    match jr.skills with
    | none => 0
    | some js =>
      10 * js.countP (fun sk =>
        (a.skills.map (fun s => lowerStr s.name)).contains (lowerStr sk))
  let possibleSkills : Nat :=
    match jr.skills with
    | none => 0
    | some js => 10 * js.length
  let ep : Nat × Nat :=
    match jr.experienceLevel, a.experienceTotalYears with
    | some lvl, some yrs =>
      let t := specThreshold lvl
      ((if t ≤ yrs then 20 else if 7 * t ≤ 10 * yrs then 10 else 0), 20)
    | _, _ => (0, 0)
  jsRound100 (earnedSkills + ep.1) (possibleSkills + ep.2)

/-! ## Shared fixtures (concrete values used by witnesses) -/

def samplePI : PersonalInfo := ⟨"John", "Doe", "john@example.com", "0123456789"⟩

def sampleResume : FileDesc := ⟨"cv.pdf", "application/pdf"⟩

/-- A stored application exactly as `Application.create` persists it. -/
def sampleApp (applicant job : Nat) (status : String) : Application :=
  ⟨applicant, job, status, samplePI, some sampleResume, [], none,
   [⟨"submitted", "Application submitted", none⟩]⟩

/-! ## Shared lemmas about updateStatus -/

/-- The timeline entry pushed by `updateStatus` itself. -/
def methodEntry (st n : String) (ub : Option Nat) : TimelineEntry :=
  ⟨st, (if n.data.isEmpty then "Status updated to " ++ st else n), ub⟩

/-- The timeline entry pushed by the pre-save hook on a status change. -/
def hookEntry (st : String) : TimelineEntry :=
  ⟨st, "Status changed to " ++ st, none⟩

theorem validApplication_append2 (a : Application) (st n : String)
    (ub : Option Nat)
    (h1 : validApplication a = true)
    (h2 : applicationStatusValues.contains st = true)
    (h3 : timelineStatusValues.contains st = true) :
    validApplication { a with status := st,
                              timeline := a.timeline
                                ++ [methodEntry st n ub, hookEntry st] } = true := by
  simp only [validApplication, Bool.and_eq_true] at h1
  simp only [List.all_eq_true, List.contains, List.elem_eq_mem,
    decide_eq_true_eq] at h1 h2 h3
  simp [validApplication, List.all_append, List.all_eq_true, List.contains,
    List.elem_eq_mem, h2, h3, methodEntry, hookEntry]
  tauto

/-- A status-changing `updateStatus` on a schema-valid document succeeds and
    appends exactly the two entries (method push, then pre-save hook push). -/
theorem updateStatus_ok (a : Application) (st n : String) (ub : Option Nat)
    (h1 : validApplication a = true)
    (h2 : applicationStatusValues.contains st = true)
    (h3 : timelineStatusValues.contains st = true)
    (hne : st ≠ a.status) :
    updateStatus a st n ub =
      .ok { a with status := st,
                   timeline := a.timeline
                     ++ [methodEntry st n ub, hookEntry st] } := by
  have hsm : decide (st ≠ a.status) = true := by simp [hne]
  have hv := validApplication_append2 a st n ub h1 h2 h3
  simp only [updateStatus, mongooseSave, preSaveTimeline, hsm, Bool.true_and,
    Bool.not_false, if_true, methodEntry, hookEntry] at hv ⊢
  simp_all [List.append_assoc, methodEntry, hookEntry]

/-! ## C2: withdrawal eligibility -/

/-- C2: withdrawing an application one owns fails with an error (and leaves
    the stored document unchanged) exactly when the current status is
    `offered`, `rejected` or `withdrawn`; from any other status it succeeds
    and sets the status to `withdrawn`. -/
theorem withdraw_terminal_guard (a : Application) (u : Nat)
    (hown : a.applicant = u) (hval : validApplication a = true) :
    (["offered", "rejected", "withdrawn"].contains a.status = true →
        withdrawApplication u a =
          .error ⟨400, "This application cannot be withdrawn"⟩) ∧
    (["offered", "rejected", "withdrawn"].contains a.status = false →
        ∃ b, withdrawApplication u a = .ok b ∧ b.status = "withdrawn") := by
  constructor
  · intro hterm
    simp only [withdrawApplication, hown, hterm, ne_eq, not_true_eq_false,
      if_false, if_true]
  · intro hterm
    have hmem : a.status ∉ (["offered", "rejected", "withdrawn"] : List String) := by
      simpa [List.contains, List.elem_eq_mem] using hterm
    have hne : "withdrawn" ≠ a.status := by
      intro h
      exact hmem (by simp [← h])
    simp only [withdrawApplication, hown, ne_eq, not_true_eq_false, if_false,
      hterm, Bool.false_eq_true]
    exact ⟨_, updateStatus_ok a "withdrawn"
      "Application withdrawn by candidate" none hval (by decide) (by decide)
      hne, rfl⟩

/-- Witness for C2 at concrete inputs: withdrawal of an `offered`
    application fails, withdrawal of a `pending` one succeeds. -/
theorem withdraw_terminal_guard_witness :
    (withdrawApplication 2 (sampleApp 2 5 "offered") =
        .error ⟨400, "This application cannot be withdrawn"⟩) ∧
    (∃ b, withdrawApplication 1 (sampleApp 1 5 "pending") = .ok b ∧
        b.status = "withdrawn") :=
  ⟨(withdraw_terminal_guard (sampleApp 2 5 "offered") 2 rfl (by decide)).1
      (by decide),
   (withdraw_terminal_guard (sampleApp 1 5 "pending") 1 rfl (by decide)).2
      (by decide)⟩

/-! ## C3: the initial timeline entry -/

def c3result : Except AppError (Application × List Application) :=
  createApplication ⟨1, "candidate", 5, samplePI, some sampleResume, none⟩
    [⟨5, 7⟩] []

/-- C3 counterexample: a freshly created application has one timeline entry,
    but its status field is `submitted`, not `pending` as claimed (the
    timeline enum does not even admit `pending`). -/
theorem fresh_timeline_status_counterexample :
    (match c3result with
     | .ok (a, _) => a.timeline.map (fun e => e.status)
     | .error _ => []) = ["submitted"] ∧
      (["submitted"] : List String) ≠ ["pending"] :=
  ⟨by rfl, by decide⟩

/-- C3 amended: every application returned by `createApplication` has status
    `pending` and exactly one timeline entry, whose status is `submitted`
    (not `pending`) with notes `Application submitted`. -/
theorem fresh_application_initial_state :
    ∀ (req : CreateInput) (jobs : List Job) (db : List Application)
      (a : Application) (db2 : List Application),
      createApplication req jobs db = .ok (a, db2) →
      a.status = "pending" ∧
        a.timeline = [⟨"submitted", "Application submitted", none⟩] := by
  intro req jobs db a db2 h
  unfold createApplication at h
  split at h
  · exact Except.noConfusion h
  · split at h
    · exact Except.noConfusion h
    · split at h
      · exact Except.noConfusion h
      · split at h
        · exact Except.noConfusion h
        · rename_i f hf
          unfold mongooseSave at h
          split at h
          · rename_i b hb
            split at hb
            · injection hb with hb2
              injection h with h2
              injection h2 with ha hdb
              subst ha
              subst hb2
              exact ⟨rfl, rfl⟩
            · exact Except.noConfusion hb
          · exact Except.noConfusion h

/-- Witness for C3 amended at a concrete input. -/
theorem fresh_application_initial_state_witness :
    (match c3result with
     | .ok (a, _) => a.status = "pending" ∧
         a.timeline = [⟨"submitted", "Application submitted", none⟩]
     | .error _ => False) := by
  have h : c3result =
      .ok (sampleApp 1 5 "pending",
           [sampleApp 1 5 "pending"]) := by rfl
  rw [h]
  exact fresh_application_initial_state _ [⟨5, 7⟩] [] _ _ h

/-! ## C5: employer ownership checks dereference a nonexistent field -/

/-- C5 (code bug): jobSchema names its poster `postedBy`, but both employer
    endpoints read `job.employer`, which is undefined; so even the employer
    who posted the job (here user 7 = postedBy) gets a TypeError (500), not
    success, and a non-owner employer gets the same 500 instead of 403.
    Only the admin path works. -/
theorem employer_ownership_check_crashes :
    getJobApplications ⟨7, "employer"⟩ 5 [⟨5, 7⟩] [sampleApp 1 5 "pending"] =
        .error ⟨500, "TypeError: Cannot read properties of undefined"⟩ ∧
      updateApplicationStatusRoute ⟨7, "employer"⟩ (sampleApp 1 5 "pending")
          ⟨5, 7⟩ "reviewing" "" =
        .error ⟨500, "TypeError: Cannot read properties of undefined"⟩ ∧
      getJobApplications ⟨9, "admin"⟩ 5 [⟨5, 7⟩] [sampleApp 1 5 "pending"] =
        .ok [sampleApp 1 5 "pending"] :=
  ⟨rfl, rfl, rfl⟩

/-! ## C7: rejected/offered are not terminal for update-status -/

def c7app : Application :=
  ⟨1, 5, "rejected", samplePI, some sampleResume, [], none,
   [⟨"submitted", "Application submitted", none⟩,
    ⟨"rejected", "Status updated to rejected", some 7⟩]⟩

/-- C7 counterexample: an authorized update-status step on an application
    whose status is `rejected` succeeds and changes the status to
    `reviewing`; nothing makes `rejected` or `offered` terminal. -/
theorem rejected_not_terminal_counterexample :
    (match updateApplicationStatusRoute ⟨9, "admin"⟩ c7app ⟨5, 7⟩ "reviewing"
        "second review" with
     | .ok b => b.status
     | .error _ => "unchanged") = "reviewing" ∧
      ("reviewing" : String) ≠ "rejected" :=
  ⟨by rfl, by decide⟩

/-- C7 amended: the update-status operation never inspects the current
    status: from `rejected` or `offered`, any different status in the route
    allow-list (that the schema accepts) is set successfully by an
    authorized actor. -/
theorem update_status_ignores_terminal (a : Application) (j : Job)
    (uid : Nat) (st notes : String)
    (hval : validApplication a = true)
    (hterm : a.status = "rejected" ∨ a.status = "offered")
    (hal : routeAllowedStatuses.contains st = true)
    (h2 : applicationStatusValues.contains st = true)
    (h3 : timelineStatusValues.contains st = true)
    (hne : st ≠ a.status) :
    ∃ b, updateApplicationStatusRoute ⟨uid, "admin"⟩ a j st notes = .ok b ∧
      b.status = st := by
  have h0 : (!st.data.isEmpty && !(routeAllowedStatuses.contains st))
      = false := by
    rw [hal]
    simp
  unfold updateApplicationStatusRoute
  rw [if_neg (by rw [h0]; exact Bool.false_ne_true), if_neg (by simp)]
  exact ⟨_, updateStatus_ok a st notes (some uid) hval h2 h3 hne, rfl⟩

/-- Witness for C7 amended at a concrete input. -/
theorem update_status_ignores_terminal_witness :
    validApplication c7app = true ∧ c7app.status = "rejected" ∧
      (∃ b, updateApplicationStatusRoute ⟨9, "admin"⟩ c7app ⟨5, 7⟩ "reviewing"
          "second review" = .ok b ∧ b.status = "reviewing") :=
  ⟨by decide, rfl,
   update_status_ignores_terminal c7app ⟨5, 7⟩ 9 "reviewing" "second review"
     (by decide) (Or.inl rfl) (by decide) (by decide) (by decide) (by decide)⟩

/-! ## C4: every status update appends two timeline entries, not one -/

/-- A sequence of status-update operations (new status, notes, actor),
    applied through `updateStatus` as the controller does. -/
def runUpdates (a : Application) :
    List (String × String × Option Nat) → Except AppError Application
  | [] => .ok a
  | u :: rest =>
    match updateStatus a u.1 u.2.1 u.2.2 with
    | .ok b => runUpdates b rest
    | .error e => .error e

/-- Each requested status is schema-acceptable and differs from the status
    it is applied to. -/
def chainOk (cur : String) :
    List (String × String × Option Nat) → Bool
  | [] => true
  | u :: rest =>
    decide (u.1 ≠ cur) && applicationStatusValues.contains u.1
      && timelineStatusValues.contains u.1 && chainOk u.1 rest

/-- C4 counterexample: one status update on a freshly created application
    (timeline length 1) yields a timeline of length 3, not the claimed
    1 + 1 = 2: `updateStatus` pushes one entry and the pre-save hook pushes
    a second. -/
theorem update_appends_one_entry_counterexample :
    (match runUpdates (sampleApp 1 5 "pending") [("reviewing", "", some 7)] with
     | .ok b => b.timeline.length
     | .error _ => 0) = 3 ∧ (3 : Nat) ≠ 2 :=
  ⟨by rfl, by decide⟩

/-- C4 amended: every status-changing update appends exactly two timeline
    entries (one pushed by `updateStatus`, one by the pre-save hook), so
    after N updates the timeline has its initial entries plus 2·N new ones;
    existing entries are never mutated or removed (the old timeline is a
    prefix of the new one). -/
theorem updates_append_two_entries :
    ∀ (us : List (String × String × Option Nat)) (a : Application),
      validApplication a = true → chainOk a.status us = true →
      ∃ b, runUpdates a us = .ok b ∧
        ∃ ext, b.timeline = a.timeline ++ ext ∧ ext.length = 2 * us.length := by
  intro us
  induction us with
  | nil =>
    intro a hv _
    exact ⟨a, rfl, [], by simp, rfl⟩
  | cons u rest ih =>
    intro a hv hc
    simp only [chainOk, Bool.and_eq_true, decide_eq_true_eq] at hc
    obtain ⟨⟨⟨hne, h2⟩, h3⟩, hrest⟩ := hc
    have hstep := updateStatus_ok a u.1 u.2.1 u.2.2 hv h2 h3 hne
    have hvb := validApplication_append2 a u.1 u.2.1 u.2.2 hv h2 h3
    obtain ⟨b, hb, ext, hext, hlen⟩ := ih _ hvb hrest
    refine ⟨b, ?_, [methodEntry u.1 u.2.1 u.2.2, hookEntry u.1] ++ ext, ?_, ?_⟩
    · simp only [runUpdates, hstep]
      exact hb
    · rw [hext]
      simp [List.append_assoc]
    · simp [hlen, List.length_cons, Nat.mul_add, Nat.mul_succ]

/-- Witness for C4 amended: two successive updates on a fresh application
    append four entries in total. -/
theorem updates_append_two_entries_witness :
    validApplication (sampleApp 1 5 "pending") = true ∧
      chainOk "pending"
        [("reviewing", "", some 7), ("shortlisted", "strong", some 7)] = true ∧
      (∃ b, runUpdates (sampleApp 1 5 "pending")
          [("reviewing", "", some 7), ("shortlisted", "strong", some 7)] =
            .ok b ∧
        ∃ ext, b.timeline = (sampleApp 1 5 "pending").timeline ++ ext ∧
          ext.length = 2 * 2) :=
  ⟨by decide, by decide,
   updates_append_two_entries
     [("reviewing", "", some 7), ("shortlisted", "strong", some 7)]
     (sampleApp 1 5 "pending") (by decide) (by decide)⟩

/-! ## C1: duplicate submissions conflict -/

/-- C1: when a candidate submits to an existing job with no prior
    application for the pair, the first `createApplication` succeeds and
    stores the document; a second identical submission fails with 409
    Conflict; the store keeps exactly one application for that
    (applicant, job) pair and at most one per any pair it had at most one
    for. -/
theorem duplicate_application_conflict
    (req : CreateInput) (jobs : List Job) (db : List Application)
    (f : FileDesc)
    (hrole : req.role = "candidate")
    (hjob : (jobs.find? (fun j => j.id == req.jobId)).isSome = true)
    (hnodup : db.any
      (fun a => a.applicant == req.userId && a.job == req.jobId) = false)
    (hres : req.resume = some f)
    (hval : validApplication (submittedDoc req f) = true) :
    createApplication req jobs db =
        .ok (submittedDoc req f, db ++ [submittedDoc req f]) ∧
      createApplication req jobs (db ++ [submittedDoc req f]) =
        .error ⟨409, "You have already applied to this job"⟩ ∧
      ((db ++ [submittedDoc req f]).filter
          (fun a => a.applicant == req.userId && a.job == req.jobId)).length
        = 1 ∧
      (∀ C J,
        (db.filter (fun a => a.applicant == C && a.job == J)).length ≤ 1 →
        ((db ++ [submittedDoc req f]).filter
            (fun a => a.applicant == C && a.job == J)).length ≤ 1) := by
  obtain ⟨j, hj⟩ := Option.isSome_iff_exists.mp hjob
  have hval2 : validApplication (preSaveTimeline (rawDoc req f) true true)
      = true := hval
  have happ : (submittedDoc req f).applicant = req.userId := rfl
  have hjb : (submittedDoc req f).job = req.jobId := rfl
  have hpair : ((submittedDoc req f).applicant == req.userId
      && (submittedDoc req f).job == req.jobId) = true := by
    rw [happ, hjb]
    simp
  have hdbnil : db.filter
      (fun a => a.applicant == req.userId && a.job == req.jobId) = [] := by
    rw [List.filter_eq_nil_iff]
    simpa [List.any_eq_true] using hnodup
  refine ⟨?_, ?_, ?_, ?_⟩
  · simp only [createApplication, hrole, ne_eq, not_true_eq_false, if_false,
      hj, hnodup, Bool.false_eq_true, hres, mongooseSave, hval2, if_true]
    rfl
  · have hany : ((db ++ [submittedDoc req f]).any
        (fun a => a.applicant == req.userId && a.job == req.jobId)) = true := by
      simp [List.any_append, hpair]
    simp only [createApplication, hrole, ne_eq, not_true_eq_false, if_false,
      hj, hany, if_true]
  · rw [List.filter_append, hdbnil]
    simp [hpair]
  · intro C J h1
    rw [List.filter_append, List.length_append]
    cases hp : ((submittedDoc req f).applicant == C
        && (submittedDoc req f).job == J) with
    | false => simpa [hp] using h1
    | true =>
      simp only [Bool.and_eq_true, beq_iff_eq] at hp
      obtain ⟨hC, hJ⟩ := hp
      rw [happ] at hC
      rw [hjb] at hJ
      subst hC
      subst hJ
      simp [hdbnil, List.filter_cons, hpair]

def c1req : CreateInput :=
  ⟨1, "candidate", 5, samplePI, some sampleResume, none⟩

/-- Witness for C1 at a concrete candidate, job and empty store. -/
theorem duplicate_application_conflict_witness :
    createApplication c1req [⟨5, 7⟩] [] =
        .ok (submittedDoc c1req sampleResume,
             [] ++ [submittedDoc c1req sampleResume]) ∧
      createApplication c1req [⟨5, 7⟩]
          ([] ++ [submittedDoc c1req sampleResume]) =
        .error ⟨409, "You have already applied to this job"⟩ :=
  ⟨(duplicate_application_conflict c1req [⟨5, 7⟩] [] sampleResume rfl
      (by decide) (by decide) rfl (by decide)).1,
   (duplicate_application_conflict c1req [⟨5, 7⟩] [] sampleResume rfl
      (by decide) (by decide) rfl (by decide)).2.1⟩

/-! ## C6: precondition order of submit-application -/

def c6piInput : PersonalInfoInput :=
  ⟨some "John", some "Doe", some "john@example.com", some "0123456789", none⟩

def c6req : RawReq := ⟨1, "candidate", some 99, .parsed c6piInput, none⟩

/-- C6 counterexample: a candidate request with a missing resume and a
    nonexistent job id is answered with `Resume file is required` (from the
    validation middleware, which runs before the controller), not with
    `Job not found` as the claim orders the checks. -/
theorem submit_check_order_counterexample :
    submitPipeline c6req [] [] = .error ⟨400, "Resume file is required"⟩ ∧
      (AppError.mk 400 "Resume file is required") ≠ ⟨404, "Job not found"⟩ :=
  ⟨rfl, by decide⟩

/-- C6 amended: on the POST /applications pipeline the middleware checks run
    before the controller checks.  For a candidate request with well-formed
    personalInfo and a present jobId: a missing resume yields ResumeRequired
    regardless of whether the job exists; with an acceptable resume file, a
    missing job yields JobNotFound; with the job present, an existing
    application for the pair yields the 409 conflict. -/
theorem submit_checks_middleware_first
    (req : RawReq) (jobs : List Job) (db : List Application)
    (p : PersonalInfoInput) (jid : Nat)
    (hrole : req.role = "candidate")
    (hpi : req.personalInfoField = .parsed p)
    (hpiok : validatePI p = none)
    (hjid : req.jobIdField = some jid) :
    (req.resumeUpload = none →
        submitPipeline req jobs db = .error ⟨400, "Resume file is required"⟩) ∧
    (∀ f, req.resumeUpload = some f → fileFilter "resume" f = .ok () →
      ((jobs.find? (fun j => j.id == jid) = none →
          submitPipeline req jobs db = .error ⟨404, "Job not found"⟩) ∧
       (∀ j, jobs.find? (fun j2 => j2.id == jid) = some j →
          db.any (fun a => a.applicant == req.userId && a.job == jid) = true →
          submitPipeline req jobs db =
            .error ⟨409, "You have already applied to this job"⟩))) := by
  have hbeq : (PIField.parsed p == PIField.badJson) = false := rfl
  constructor
  · intro hresnone
    simp only [submitPipeline, hrole, hresnone, validateApplicationWithFiles,
      hpi, hbeq, hjid, Bool.false_eq_true, if_false, Option.isNone_some,
      Option.isNone_none, if_true]
    simp
  · intro f hresf hff
    simp only [submitPipeline, hrole, hresf, hff, validateApplicationWithFiles,
      hpi, hbeq, hjid, Bool.false_eq_true, if_false, Option.isNone_some,
      Option.isNone_none, hpiok, if_true]
    constructor
    · intro hnone
      simp only [createApplication, Option.getD_some, hnone]
      simp
    · intro j hj hdup
      simp only [createApplication, Option.getD_some, hj, hdup]
      simp

/-- Witness for C6 amended: the resume check fires first on a concrete
    request lacking a resume and naming a job id that is not posted. -/
theorem submit_checks_middleware_first_witness :
    validatePI c6piInput = none ∧
      submitPipeline ⟨1, "candidate", some 99, .parsed c6piInput, none⟩
          [⟨5, 7⟩] [] = .error ⟨400, "Resume file is required"⟩ :=
  ⟨by decide,
   (submit_checks_middleware_first
       ⟨1, "candidate", some 99, .parsed c6piInput, none⟩ [⟨5, 7⟩] []
       c6piInput 99 rfl rfl (by decide) rfl).1 rfl⟩

/-! ## C8 and C9: compatibility scoring -/

theorem skill_foldl_eq (apl : List String) (js : List String) (s0 m0 : Nat) :
    js.foldl (fun acc sk =>
        (acc.1 + (if apl.contains sk then 10 else 0), acc.2 + 10)) (s0, m0)
      = (s0 + 10 * js.countP (fun sk => apl.contains sk),
         m0 + 10 * js.length) := by
  induction js generalizing s0 m0 with
  | nil => simp
  | cons a l ih =>
    simp only [List.foldl_cons]
    rw [ih, List.countP_cons, List.length_cons]
    cases hp : apl.contains a <;>
      simp only [hp, Bool.false_eq_true, eq_self_iff_true, if_true, if_false,
        Prod.mk.injEq] <;>
      omega

theorem jsRound100_le (s1 s2 m : Nat) (h : s1 ≤ s2) :
    jsRound100 s1 m ≤ jsRound100 s2 m := by
  unfold jsRound100
  cases hm : (m == 0) with
  | true => simp
  | false =>
    simp only [hm, Bool.false_eq_true, if_false]
    exact Nat.div_le_div_right (by omega)

/-- C8: the compatibility score computed by the model method equals the
    specification formula — 10 points per required skill matched
    case-insensitively out of 10 possible each, 20/10/0 experience points
    against the level thresholds (entry 0, mid 3, senior 7, executive 15,
    with half credit at 70%), rounded as `round(earned/possible*100)` and 0
    when no criteria apply — for every experience level the job schema
    admits. -/
theorem compatibility_score_matches_spec (a : Application)
    (jr : JobRequirements)
    (hlvl : ∀ l, jr.experienceLevel = some l → l ∈ jobExperienceLevels) :
    calculateCompatibilityScore a jr = specCompatibilityScore a jr := by
  have hth : ∀ l, l ∈ jobExperienceLevels →
      requiredExpLookup l = specThreshold l := by decide
  unfold calculateCompatibilityScore specCompatibilityScore
  rcases hjs : jr.skills with _ | js <;>
    rcases hlv : jr.experienceLevel with _ | lvl <;>
      rcases hyr : a.experienceTotalYears with _ | yrs <;>
        simp only [skill_foldl_eq, List.countP_map, List.length_map,
          Function.comp_def, Nat.zero_add]
  all_goals rw [hth lvl (hlvl lvl hlv)]

def c8app : Application :=
  { sampleApp 1 5 "pending" with
      skills := [⟨"react", "intermediate"⟩], experienceTotalYears := some 5 }

/-- Witness for C8 at a concrete applicant and requirement set (one of two
    required skills matched, mid-level threshold met: score 75). -/
theorem compatibility_score_matches_spec_witness :
    calculateCompatibilityScore c8app ⟨some ["React", "Node"], some "mid"⟩ =
        specCompatibilityScore c8app ⟨some ["React", "Node"], some "mid"⟩ ∧
      calculateCompatibilityScore c8app ⟨some ["React", "Node"], some "mid"⟩
        = 75 :=
  ⟨compatibility_score_matches_spec c8app ⟨some ["React", "Node"], some "mid"⟩
      (by intro l h; injection h with h2; rw [← h2]; decide),
   by decide⟩

/-- C9: holding the job requirements and the applicant experience fixed,
    appending any further skills (in particular any required skill of the
    job) to the applicant skill list never decreases the compatibility
    score. -/
theorem compatibility_score_monotone (a : Application)
    (jr : JobRequirements) (extra : List Skill) :
    calculateCompatibilityScore a jr ≤
      calculateCompatibilityScore { a with skills := a.skills ++ extra } jr := by
  unfold calculateCompatibilityScore
  rcases hjs : jr.skills with _ | js <;>
    rcases hlv : jr.experienceLevel with _ | lvl <;>
      rcases hyr : a.experienceTotalYears with _ | yrs <;>
        simp only [skill_foldl_eq, List.countP_map, List.length_map,
          Function.comp_def, Nat.zero_add]
  all_goals try exact Nat.le_refl _
  all_goals apply jsRound100_le
  all_goals apply Nat.add_le_add_right
  all_goals apply Nat.mul_le_mul_left
  all_goals
    apply List.countP_mono_left
    intro sk _ hmem
    simp only [List.map_append, List.contains, List.elem_eq_mem,
      decide_eq_true_eq, List.mem_append] at hmem ⊢
    exact Or.inl hmem

/-! ## C10: file-type validation rejects before any database write -/

def c10pi : PersonalInfoInput :=
  ⟨some "Jane", some "Roe", some "jane@example.com", some "0612345678", none⟩

/-- C10: a file is rejected with the InvalidFileType error whenever its
    declared mime type or its lowercased extension is outside the allow-list
    of the slot; in particular any resume upload whose extension is `.exe`
    makes the whole submission pipeline fail with that error, leaving the
    application store untouched (the rejection happens before the
    controller, hence before any database write). -/
theorem invalid_file_type_rejection :
    (∀ (field : String) (f : FileDesc),
      ((allowedMimeTypes field).contains f.mimetype = false ∨
        (allowedExtensions field).contains
          (lowerStr (extname f.originalName)) = false) →
      fileFilter field f = .error ⟨400, invalidFileTypeMsg field⟩) ∧
    (∀ (req : RawReq) (jobs : List Job) (db : List Application) (f : FileDesc),
      req.role = "candidate" → req.resumeUpload = some f →
      lowerStr (extname f.originalName) = ".exe" →
      submitPipeline req jobs db = .error ⟨400, invalidFileTypeMsg "resume"⟩ ∧
        submitPipelineState req jobs db = db) := by
  constructor
  · intro field f h
    have h2 : ¬(f.mimetype ∈ allowedMimeTypes field ∧
        lowerStr (extname f.originalName) ∈ allowedExtensions field) := by
      rcases h with h | h <;> simp [List.contains, List.elem_eq_mem] at h <;>
        tauto
    simp [fileFilter]
    exact fun hm hx => h2 ⟨hm, hx⟩
  · intro req jobs db f hrole hres hext
    have hrej : fileFilter "resume" f =
        .error ⟨400, invalidFileTypeMsg "resume"⟩ := by
      simp [fileFilter, hext]
      exact fun _ => by decide
    have hp : submitPipeline req jobs db =
        .error ⟨400, invalidFileTypeMsg "resume"⟩ := by
      have hc : (["candidate", "admin"].contains req.role) = true := by
        rw [hrole]
        rfl
      simp only [submitPipeline, hc, Bool.not_true, Bool.false_eq_true,
        if_false, hres, hrej]
    exact ⟨hp, by simp [submitPipelineState, hp]⟩

/-- Witness for C10: a `.exe` resume with a benign declared mime type is
    rejected at the filter and by the whole pipeline, and the store stays
    empty. -/
theorem invalid_file_type_rejection_witness :
    fileFilter "resume" ⟨"virus.exe", "application/pdf"⟩ =
        .error ⟨400, invalidFileTypeMsg "resume"⟩ ∧
      submitPipeline ⟨1, "candidate", some 5, .parsed c10pi,
          some ⟨"virus.exe", "application/pdf"⟩⟩ [⟨5, 7⟩] [] =
        .error ⟨400, invalidFileTypeMsg "resume"⟩ ∧
      submitPipelineState ⟨1, "candidate", some 5, .parsed c10pi,
          some ⟨"virus.exe", "application/pdf"⟩⟩ [⟨5, 7⟩] [] = [] :=
  ⟨invalid_file_type_rejection.1 "resume" ⟨"virus.exe", "application/pdf"⟩
      (Or.inr (by decide)),
   (invalid_file_type_rejection.2 ⟨1, "candidate", some 5, .parsed c10pi,
       some ⟨"virus.exe", "application/pdf"⟩⟩ [⟨5, 7⟩] []
       ⟨"virus.exe", "application/pdf"⟩ rfl rfl (by decide)).1,
   (invalid_file_type_rejection.2 ⟨1, "candidate", some 5, .parsed c10pi,
       some ⟨"virus.exe", "application/pdf"⟩⟩ [⟨5, 7⟩] []
       ⟨"virus.exe", "application/pdf"⟩ rfl rfl (by decide)).2⟩

end FindYourJob




